import Mathlib

/-!
Verification of the sandstone resource-identifier naming engine and
entity target-selector serialization engine, as implemented in
`src/_internals/variables/Selector.ts` and the `BasePathClass` portion of
`src/_internals/commands/implementations/Teleport.ts`.

The TypeScript code is shallowly embedded: JavaScript objects holding the
selector arguments become ordered association lists from keys to optional
values (a key mapped to `none` models a key that is present but holds
`undefined`), JavaScript strings become `String`, and the numbers appearing
in the claims become `Int`.  Fallible operations return `Except`.
-/

namespace Sandstone

/-- Decidable equality for `Except`, so that concrete runs of the fallible
operations can be checked by `decide`. -/
def exceptDecEq {ε α : Type} [DecidableEq ε] [DecidableEq α] :
    (a b : Except ε α) → Decidable (a = b)
  | Except.ok x, Except.ok y =>
    if h : x = y then isTrue (by rw [h]) else isFalse (by intro hc; cases hc; exact h rfl)
  | Except.ok _, Except.error _ => isFalse (by intro hc; cases hc)
  | Except.error _, Except.ok _ => isFalse (by intro hc; cases hc)
  | Except.error x, Except.error y =>
    if h : x = y then isTrue (by rw [h]) else isFalse (by intro hc; cases hc; exact h rfl)

instance {ε α : Type} [DecidableEq ε] [DecidableEq α] : DecidableEq (Except ε α) :=
  exceptDecEq

/-! ## Selector encoder: data model

`Range = number | [min, max] | [min, null] | [null, max]` (Selector.ts:5).
A two-element JavaScript array with possibly-null entries is modelled as
`minmax` with `Option Int` bounds. -/

inductive RangeVal where
  | num (n : Int)
  | minmax (lo hi : Option Int)
  deriving DecidableEq, Repr

/-- A value of `AdvancementsArgument = Record<string, boolean | Record<string, boolean>>`
(Selector.ts:9): either a boolean leaf or a one-level nested map of booleans. -/
inductive AdvVal where
  | flag (b : Bool)
  | nested (m : List (String × Bool))
  deriving DecidableEq, Repr

/-- The possible shapes of a value stored in a selector's `arguments` object
(`SelectorProperties`, Selector.ts:15-140): numbers, ranges, strings,
string arrays, booleans (team), score maps and advancement maps. -/
inductive SelVal where
  | num (n : Int)
  | minmax (lo hi : Option Int)
  | str (s : String)
  | strList (l : List String)
  | bool (b : Bool)
  | score (entries : List (String × RangeVal))
  | advancements (entries : List (String × AdvVal))
  deriving DecidableEq, Repr

/-- The selector's argument object: an insertion-ordered association list.
A key mapped to `none` is a key present with value `undefined`. -/
abbrev SelArgs := List (String × Option SelVal)

/-- JavaScript `x ?? ''` on a possibly-null number, rendered to text. -/
def optIntStr : Option Int → String
  | some n => toString n
  | none => ""

/-- `parseScore` (Selector.ts:142-149): braces around comma-joined
`name=value` pairs, where an array range renders as `"{v0 ?? ''}..{v1 ?? ''}"`. -/
def parseScore (scores : List (String × RangeVal)) : String :=
  "\x7b" ++ String.intercalate ", " (scores.map fun p =>
    match p.2 with
    | RangeVal.minmax lo hi => p.1 ++ "=" ++ optIntStr lo ++ ".." ++ optIntStr hi
    | RangeVal.num n => p.1 ++ "=" ++ toString n) ++ "\x7d"

/-- Inner level of `parseAdvancements` (Selector.ts:151-159): a map whose
leaves are all booleans. -/
def parseAdvancementsInner (m : List (String × Bool)) : String :=
  "\x7b" ++ String.intercalate ", " (m.map fun p =>
    p.1 ++ "=" ++ (if p.2 then "true" else "false")) ++ "\x7d"

/-- `parseAdvancements` (Selector.ts:151-159): boolean leaves render as
`true`/`false`; map leaves recurse one level. -/
def parseAdvancements (l : List (String × AdvVal)) : String :=
  "\x7b" ++ String.intercalate ", " (l.map fun p =>
    match p.2 with
    | AdvVal.flag b => p.1 ++ "=" ++ (if b then "true" else "false")
    | AdvVal.nested m => p.1 ++ "=" ++ parseAdvancementsInner m) ++ "\x7d"

/-- JavaScript `value.toString()` on the value shapes above, used by the
generic Phase 2 of `SelectorClass.toString` (Selector.ts:250-254):
a number renders in decimal; a two-element array joins its elements with
`","`, rendering `null` as the empty string; a string renders as itself;
a string array joins with `","`; a boolean renders `true`/`false`;
a plain object renders as `"[object Object]"`. -/
def jsToString : SelVal → String
  | SelVal.num n => toString n
  | SelVal.minmax lo hi => optIntStr lo ++ "," ++ optIntStr hi
  | SelVal.str s => s
  | SelVal.strList l => String.intercalate "," l
  | SelVal.bool b => if b then "true" else "false"
  | SelVal.score _ => "[object Object]"
  | SelVal.advancements _ => "[object Object]"

/-- JavaScript property read `args[name]`: yields `undefined` (`none`) both
when the key is absent and when it is present with value `undefined`. -/
def jsLookup (args : SelArgs) (k : String) : Option SelVal :=
  match args.find? (fun p => p.1 = k) with
  | some p => p.2
  | none => none

/-- JavaScript `delete args[name]`: removes the key from the object,
preserving the order of the remaining keys. -/
def removeKey (k : String) (args : SelArgs) : SelArgs :=
  args.filter (fun p => ¬ p.1 = k)

/-- The pairs a Phase-1 modifier pushes onto `result` for its key
(Selector.ts:204-238).  For each of the five special keys the match is
exhaustive over the value shapes the TypeScript type `SelectorProperties`
permits for that key; the final catch-all is unreachable for well-typed
arguments. -/
def applyModifier (k : String) (v : SelVal) : List (String × String) :=
  match k, v with
  | "score", SelVal.score entries => [("score", parseScore entries)]
  | "advancements", SelVal.advancements entries => [("advancements", parseAdvancements entries)]
  | "tag", SelVal.str s => [("tag", s)]
  | "tag", SelVal.strList ts => ts.map (fun t => ("tag", t))
  | "predicate", SelVal.str s => [("predicate", s)]
  | "predicate", SelVal.strList ps => ps.map (fun p => ("predicate", p))
  | "team", SelVal.bool true => [("team", "!")]
  | "team", SelVal.bool false => [("team", "")]
  | "team", SelVal.str s => [("team", s)]
  | _, _ => []

/-- The fixed iteration order of the `modifiers` object literal
(Selector.ts:204-238): `Object.entries` yields its keys in declaration
order. -/
def modifierNames : List String := ["score", "advancements", "tag", "predicate", "team"]

/-- Phase 1 of `SelectorClass.toString` (Selector.ts:240-248): for each
special key in `modifierNames` order, if the working copy holds a defined
value for it, push the modifier's pairs and delete the key from the working
copy.  Returns the working copy left for Phase 2 and the accumulated pairs. -/
def phase1Step (acc : SelArgs × List (String × String)) (k : String) :
    SelArgs × List (String × String) :=
  match jsLookup acc.1 k with
  | some v => (removeKey k acc.1, acc.2 ++ applyModifier k v)
  | none => acc

def phase1 (working : SelArgs) : SelArgs × List (String × String) :=
  modifierNames.foldl phase1Step (working, [])

/-- Phase 2 of `SelectorClass.toString` (Selector.ts:250-254): the remaining
keys in insertion order, each as `key = value.toString()`, keys holding
`undefined` skipped. -/
def phase2 (working : SelArgs) : List (String × String) :=
  working.filterMap (fun p => p.2.map (fun v => (p.1, jsToString v)))

/-- `SelectorClass.toString` (Selector.ts:194-258), returning both the
produced string and the instance's `arguments` object as it stands after
the call.  The source copies the arguments (`const args = { ...this.arguments }`,
line 202) and deletes processed keys only from that copy, so the instance's
own `arguments` are returned unchanged. -/
def selToStringFull (target : String) (args : SelArgs) : String × SelArgs :=
  if args.length = 0 then (target, args)
  else
    let working := args
    let p1 := phase1 working
    let result := p1.2 ++ phase2 p1.1
    (target ++ "[" ++ String.intercalate ", " (result.map fun p => p.1 ++ "=" ++ p.2) ++ "]",
     args)

/-- The string produced by `SelectorClass.toString`. -/
def selToString (target : String) (args : SelArgs) : String :=
  (selToStringFull target args).1

/-! ## Selector construction: capability tags

The source enforces the single-result constraint purely through TypeScript
overload types (`Selector`, Selector.ts:276-281, and the
`MustBeSingle extends true ? \x7b limit: 0 | 1 \x7d : ...` clause at
Selector.ts:139): the runtime constructor itself performs no check. -/

inductive SelectorError where
  | LimitRequired
  | InvalidTypeForPlayerSelector
  deriving DecidableEq, Repr

/-- A constructed selector: target glyph plus argument object. -/
structure SelectorState where
  target : String
  arguments : SelArgs
  deriving DecidableEq, Repr

/-- The arguments carry a `limit` filter equal to exactly `0` or `1`. -/
def hasValidLimit (args : SelArgs) : Bool :=
  match jsLookup args "limit" with
  | some (SelVal.num n) => n == 0 || n == 1
  | _ => false

/-- Modelled from the spec: the runtime form of selector construction under
the `singleResultOnly` capability tag.  The source expresses this constraint
only in TypeScript overload types (Selector.ts:139, 276-281), which are
erased at runtime; the spec (§3, §4.2) re-expresses it as a construction-time
check that fails with `SelectorError::LimitRequired` when
`singleResultOnly = true` and the arguments do not carry a `limit` of
exactly `0` or `1`, before any selector string is produced. -/
def mkSelector (singleResultOnly : Bool) (target : String) (args : SelArgs) :
    Except SelectorError SelectorState :=
  if singleResultOnly && !hasValidLimit args then Except.error SelectorError.LimitRequired
  else Except.ok ⟨target, args⟩

/-! ## Identifier resolver: data model

`BasePathClass` (Teleport.ts:142-237) and its helpers `trimSlashes`
(Teleport.ts:132-134) and `pathToArray` (Teleport.ts:137-139). -/

/-- Options accepted by the `BasePathClass` constructor
(`BasePathOptions`, Teleport.ts:123-129). -/
structure BasePathOptions where
  namesp : Option String
  directory : Option String
  deriving DecidableEq, Repr

/-- A constructed naming context. -/
structure BasePath where
  namesp : Option String
  directory : Option String
  deriving DecidableEq, Repr

/-- `str.replace(/^\/+/, '').replace(/\/+$/, '')` on the character list:
drop every leading `'/'`, then every trailing `'/'`. -/
def trimSlashesChars (l : List Char) : List Char :=
  ((l.dropWhile (fun c => c == '/')).reverse.dropWhile (fun c => c == '/')).reverse

/-- `trimSlashes` (Teleport.ts:132-134): `undefined` passes through;
otherwise leading and trailing slashes are removed. -/
def trimSlashes (s : Option String) : Option String :=
  s.map (fun t => ⟨trimSlashesChars t.toList⟩)

/-- JavaScript `str.split('/')` on the character list: splitting on a
single-character separator, where `''.split('/')` is `['']`. -/
def splitOnSlashChars : List Char → List (List Char)
  | [] => [[]]
  | c :: rest =>
    if c = '/' then [] :: splitOnSlashChars rest
    else
      match splitOnSlashChars rest with
      | s :: ss => (c :: s) :: ss
      | [] => [[c]]

/-- JavaScript `str.split('/')`. -/
def splitOnSlash (s : String) : List String :=
  (splitOnSlashChars s.toList).map (fun l => ⟨l⟩)

/-- `pathToArray` (Teleport.ts:137-139): `(path ?? '').split('/')`. -/
def pathToArray (path : Option String) : List String :=
  splitOnSlash (path.getD "")

/-- The `BasePathClass` constructor (Teleport.ts:149-155): stores the
namespace as given and the directory with leading and trailing slashes
removed. -/
def mkBasePath (opts : BasePathOptions) : BasePath :=
  ⟨opts.namesp, trimSlashes opts.directory⟩

/-- `BasePathClass.child` (Teleport.ts:229-237): the child keeps the parent
namespace and joins the parent directory segments with the trimmed child
directory segments. -/
def childBasePath (bp : BasePath) (childDirectory : Option String) : BasePath :=
  let newDirectory := pathToArray (trimSlashes childDirectory)
  let oldDirectory := pathToArray bp.directory
  mkBasePath ⟨bp.namesp, some (String.intercalate "/" (oldDirectory ++ newDirectory))⟩

/-! ## Identifier resolver: name resolution -/

inductive NamingError where
  | NamespaceUnderBasePath
  | InvalidNamespace
  | EmptyName
  | InvalidPath
  | DoubleDot
  deriving DecidableEq, Repr

/-- JavaScript `name.includes(':')`. -/
def hasColon (name : String) : Bool :=
  name.toList.contains ':'

/-- Split a character list at the first `':'`, if any. -/
def breakAtColon : List Char → Option (List Char × List Char)
  | [] => none
  | c :: rest =>
    if c = ':' then some ([], rest)
    else (breakAtColon rest).map (fun p => (c :: p.1, p.2))

/-- The namespace and path pieces `Datapack.getResourcePath` hands back. -/
structure ResourcePath where
  namesp : String
  fullPath : List String
  deriving DecidableEq, Repr

/-- Modelled from the spec: `Datapack.getResourcePath` (called at
Teleport.ts:163) lives outside `src/`.  The spec (§4.1 steps 2 and 4) says
the name is split on the first `':'` into an optional explicit namespace and
a bare path, and that the namespace falls back to the host-defined default
namespace when no explicit one is given. -/
def getResourcePath (defaultNamespace : String) (name : String) : ResourcePath :=
  match breakAtColon name.toList with
  | some p => ⟨⟨p.1⟩, [⟨p.2⟩]⟩
  | none => ⟨defaultNamespace, [name]⟩

/-- A namespace character allowed by `/^[0-9a-z_-]+$/` (Teleport.ts:180). -/
def validNamespaceChar (c : Char) : Bool :=
  c.isDigit || c.isLower || c == '_' || c == '-'

/-- The namespace matches `/^[0-9a-z_-]+$/`: non-empty, only allowed
characters. -/
def validNamespace (s : String) : Bool :=
  !s.isEmpty && s.toList.all validNamespaceChar

/-- A path character allowed by `/^[0-9a-z_/.-]+$/` (Teleport.ts:203). -/
def validPathChar (c : Char) : Bool :=
  validNamespaceChar c || c == '/' || c == '.'

/-- The path matches `/^[0-9a-z_/.-]+$/`: non-empty, only allowed
characters. -/
def validPath (s : String) : Bool :=
  !s.isEmpty && s.toList.all validPathChar

/-- JavaScript `path.includes('..')` on the character list. -/
def hasDoubleDotChars : List Char → Bool
  | '.' :: '.' :: _ => true
  | _ :: rest => hasDoubleDotChars rest
  | [] => false

/-- JavaScript `path.includes('..')`. -/
def hasDoubleDot (s : String) : Bool :=
  hasDoubleDotChars s.toList

/-- JavaScript truthiness test `!this.namespace`: `undefined` and the empty
string are both falsy. -/
def jsFalsy : Option String → Bool
  | none => true
  | some s => s.isEmpty

/-- The joined path of `BasePathClass.getName` (Teleport.ts:166):
`[this.directory, ...resourcePath.fullPath].filter((x) => x !== undefined).join('/')`. -/
def joinedPath (defaultNamespace : String) (bp : BasePath) (name : String) : String :=
  String.intercalate "/"
    ((match bp.directory with | some d => [d] | none => []) ++
      (getResourcePath defaultNamespace name).fullPath)

/-- The final namespace of `BasePathClass.getName` (Teleport.ts:169):
`this.namespace ?? resourcePath.namespace`. -/
def finalNamespace (defaultNamespace : String) (bp : BasePath) (name : String) : String :=
  bp.namesp.getD (getResourcePath defaultNamespace name).namesp

/-- `BasePathClass.getName` (Teleport.ts:158-222): validates and crafts the
name of a resource. -/
def getName (defaultNamespace : String) (bp : BasePath) (name : String) :
    Except NamingError String :=
  if bp.namesp.isSome && hasColon name then Except.error NamingError.NamespaceUnderBasePath
  else
    let path := joinedPath defaultNamespace bp name
    let ns := finalNamespace defaultNamespace bp name
    if !validNamespace ns then Except.error NamingError.InvalidNamespace
    else if path.length == 0 then Except.error NamingError.EmptyName
    else if !validPath path then Except.error NamingError.InvalidPath
    else if hasDoubleDot path then Except.error NamingError.DoubleDot
    else if jsFalsy bp.namesp && !(hasColon name) then Except.ok path
    else Except.ok (ns ++ ":" ++ path)

end Sandstone

namespace Sandstone

/-! ## Theorems -/

/-- C1: the claim states that in the generic (Phase 2) path a two-element
bound `[min, max]` renders as `"min..max"`, so that
`encode({glyph: "@e", args: {distance: [2, null]}})` is
`"@e[distance=2..]"`.  On the code, Phase 2 stringifies the value with
JavaScript `Array.prototype.toString`, which joins the two elements with
`","` and renders `null` as the empty string: the output is
`"@e[distance=2,]"`, not `"@e[distance=2..]"`. -/
theorem c1_distance_range_eval :
    selToString "@e" [("distance", some (SelVal.minmax (some 2) none))] = "@e[distance=2,]" ∧
    selToString "@e" [("distance", some (SelVal.minmax (some 2) none))] ≠ "@e[distance=2..]" := by
  constructor <;> decide

/-- C2: the claim states that an array-valued `type` filter expands into one
repeated `type=value` pair per element.  On the code, `type` is not among the
Phase-1 special keys, so Phase 2 stringifies the whole array with JavaScript
`Array.prototype.toString`, producing a single comma-joined `type=` pair,
contradicting the doc example at Selector.ts:105. -/
theorem c2_type_array_eval :
    selToString "@e" [("type", some (SelVal.strList ["!minecraft:cow", "!minecraft:skeleton"]))] =
      "@e[type=!minecraft:cow,!minecraft:skeleton]" ∧
    selToString "@e" [("type", some (SelVal.strList ["!minecraft:cow", "!minecraft:skeleton"]))] ≠
      "@e[type=!minecraft:cow, type=!minecraft:skeleton]" := by
  constructor <;> decide

/-- C3: a selector built with the single-result capability whose arguments do
not carry a `limit` equal to exactly `0` or `1` fails at construction with
`SelectorError.LimitRequired`: no `SelectorState` is produced, so no selector
string can be serialized from it. -/
theorem c3_singleResult_limitRequired (target : String) (args : SelArgs)
    (h : hasValidLimit args = false) :
    mkSelector true target args = Except.error SelectorError.LimitRequired := by
  simp [mkSelector, h]

/-- Witness for C3 at the concrete input `target = "@e"`, `args = []`
(no `limit` at all). -/
theorem c3_singleResult_limitRequired_witness :
    hasValidLimit [] = false ∧
    mkSelector true "@e" [] = Except.error SelectorError.LimitRequired :=
  ⟨by decide, c3_singleResult_limitRequired "@e" [] (by decide)⟩

/-- C5: under a context whose namespace is set, any name containing `':'`
fails with `NamingError.NamespaceUnderBasePath`, and no identifier is
produced. -/
theorem c5_namespace_under_base_path (d : String) (bp : BasePath) (name : String)
    (h1 : bp.namesp.isSome = true) (h2 : hasColon name = true) :
    getName d bp name = Except.error NamingError.NamespaceUnderBasePath := by
  simp [getName, h1, h2]

/-- Witness for C5: resolving `"a:b"` under a context with fixed namespace
`"x"` fails with `NamespaceUnderBasePath`. -/
theorem c5_namespace_under_base_path_witness :
    getName "minecraft" ⟨some "x", none⟩ "a:b" =
      Except.error NamingError.NamespaceUnderBasePath :=
  c5_namespace_under_base_path "minecraft" ⟨some "x", none⟩ "a:b" (by decide) (by decide)

/-- C8: serialization is a pure function of the spec's argument mapping:
the call leaves the instance's stored arguments unchanged (the special-case
key removal operates on a working copy), and calling it again on the
post-call state yields the identical string. -/
theorem c8_encode_pure (target : String) (args : SelArgs) :
    (selToStringFull target args).2 = args ∧
    selToString target (selToStringFull target args).2 = selToString target args := by
  have h2 : (selToStringFull target args).2 = args := by
    unfold selToStringFull
    split <;> rfl
  exact ⟨h2, by rw [h2]⟩

/-- A defined value looked up in an argument object whose values are all
`undefined` is impossible. -/
lemma jsLookup_none_of_all_none {w : SelArgs} (h : ∀ p ∈ w, p.2 = none) (k : String) :
    jsLookup w k = none := by
  unfold jsLookup
  cases hf : w.find? (fun p => p.1 = k) with
  | none => rfl
  | some p => exact h p (List.mem_of_find?_eq_some hf)

/-- Phase 1 leaves an all-`undefined` working copy untouched and pushes no
pairs. -/
lemma foldl_phase1Step_all_none {w : SelArgs} (h : ∀ p ∈ w, p.2 = none) :
    ∀ (names : List String) (acc : List (String × String)),
      names.foldl phase1Step (w, acc) = (w, acc) := by
  intro names
  induction names with
  | nil => intro acc; rfl
  | cons k ks ih =>
    intro acc
    rw [List.foldl_cons]
    have hstep : phase1Step (w, acc) k = (w, acc) := by
      unfold phase1Step
      rw [jsLookup_none_of_all_none h]
    rw [hstep]
    exact ih acc

/-- C10: an arguments object with at least one key but only `undefined`
values takes the general path (the fast path counts keys, not defined
values), yet emits no pair in either phase: the output is the glyph followed
by an empty bracket pair, not the bare glyph. -/
theorem c10_all_undefined (target : String) (args : SelArgs)
    (h1 : args ≠ []) (h2 : ∀ p ∈ args, p.2 = none) :
    selToString target args = target ++ "[]" := by
  have hlen : ¬ args.length = 0 := by simpa [List.length_eq_zero] using h1
  have hp1 : phase1 args = (args, []) := foldl_phase1Step_all_none h2 modifierNames []
  have hp2 : phase2 args = [] := by
    unfold phase2
    rw [List.filterMap_eq_nil_iff]
    intro p hp
    rw [h2 p hp]
    rfl
  simp only [selToString, selToStringFull, hlen, if_false, hp1, hp2]
  simp only [List.append_nil, List.map_nil, String.append_assoc]
  congr 1

/-- Witness for C10 at the concrete input `"@e"` with the single key
`"name"` holding `undefined`: the output is `"@e[]"`. -/
theorem c10_all_undefined_witness : selToString "@e" [("name", none)] = "@e" ++ "[]" :=
  c10_all_undefined "@e" [("name", none)] (by decide) (by decide)

/-- C9: a list-valued `tag` filter expands into one repeated `tag=value`
pair per element, in input order (the emitted pairs are exactly
`ts.map (tag=·)`, comma-space joined); a `tag` key holding `undefined`
emits no pair; and the spec example
`encode(@e, tag=[a,b]) = "@e[tag=a, tag=b]"` holds. -/
theorem c9_tag_list_expansion :
    (∀ ts : List String,
      selToString "@e" [("tag", some (SelVal.strList ts))] =
        "@e[" ++ String.intercalate ", " (ts.map (fun t => "tag=" ++ t)) ++ "]") ∧
    selToString "@e" [("tag", none)] = "@e[]" ∧
    selToString "@e" [("tag", some (SelVal.strList ["a", "b"]))] = "@e[tag=a, tag=b]" := by
  refine ⟨fun ts => ?_, by decide, by decide⟩
  have h1 : phase1 [("tag", some (SelVal.strList ts))] = ([], ts.map (fun t => ("tag", t))) := by
    simp [phase1, modifierNames, phase1Step, jsLookup, removeKey, applyModifier]
  have h2 : phase2 ([] : SelArgs) = [] := rfl
  simp only [selToString, selToStringFull, h1, h2, List.length_cons, List.length_nil]
  simp only [List.append_nil, List.map_map]
  norm_num
  rfl

/-- The head of `dropWhile (· == '/')` is never a slash. -/
lemma head?_dropWhileSlash {l : List Char} {a : Char}
    (h : (l.dropWhile (fun c => c == '/')).head? = some a) : a ≠ '/' := by
  induction l with
  | nil => simp [List.dropWhile] at h
  | cons c t ih =>
    rw [List.dropWhile_cons] at h
    split at h
    · exact ih h
    · rename_i hc
      simp only [List.head?_cons, Option.some.injEq] at h
      subst h
      simpa using hc

/-- `dropWhile` returns a suffix of its input. -/
lemma exists_dropWhile_append (p : Char → Bool) (l : List Char) :
    ∃ t, l = t ++ l.dropWhile p := by
  induction l with
  | nil => exact ⟨[], rfl⟩
  | cons c t ih =>
    rw [List.dropWhile_cons]
    by_cases hc : p c
    · obtain ⟨u, hu⟩ := ih
      refine ⟨c :: u, ?_⟩
      rw [if_pos hc, List.cons_append, ← hu]
    · exact ⟨[], by rw [if_neg hc, List.nil_append]⟩

/-- The trimmed character list never ends in a slash. -/
lemma trimSlashesChars_getLast {l : List Char} {a : Char}
    (h : (trimSlashesChars l).getLast? = some a) : a ≠ '/' := by
  unfold trimSlashesChars at h
  rw [List.getLast?_reverse] at h
  exact head?_dropWhileSlash h

/-- The trimmed character list never starts with a slash. -/
lemma trimSlashesChars_head {l : List Char} {a : Char}
    (h : (trimSlashesChars l).head? = some a) : a ≠ '/' := by
  obtain ⟨t, ht⟩ :=
    exists_dropWhile_append (fun c => c == '/') (l.dropWhile (fun c => c == '/')).reverse
  unfold trimSlashesChars at h
  have hm2 : l.dropWhile (fun c => c == '/') =
      ((l.dropWhile (fun c => c == '/')).reverse.dropWhile (fun c => c == '/')).reverse ++
        t.reverse := by
    have h3 := congrArg List.reverse ht
    rwa [List.reverse_reverse, List.reverse_append] at h3
  cases hd : ((l.dropWhile (fun c => c == '/')).reverse.dropWhile (fun c => c == '/')).reverse with
  | nil => rw [hd] at h; simp at h
  | cons b bs =>
    rw [hd] at h
    simp only [List.head?_cons, Option.some.injEq] at h
    subst h
    have hb : (l.dropWhile (fun c => c == '/')).head? = some b := by
      rw [hm2, hd]; rfl
    exact head?_dropWhileSlash hb

/-- A directory stored by the `BasePathClass` constructor neither starts nor
ends with a slash. -/
lemma mkBasePath_dir_no_slash (opts : BasePathOptions) (d : String)
    (h : (mkBasePath opts).directory = some d) :
    (∀ a, d.toList.head? = some a → a ≠ '/') ∧
    (∀ a, d.toList.getLast? = some a → a ≠ '/') := by
  unfold mkBasePath trimSlashes at h
  cases ho : opts.directory with
  | none => rw [ho] at h; simp at h
  | some t =>
    rw [ho] at h
    simp only [Option.map_some', Option.some.injEq] at h
    subst h
    constructor
    · intro a ha
      exact trimSlashesChars_head ha
    · intro a ha
      exact trimSlashesChars_getLast ha

/-- C4 (amended): every naming context built by the root constructor or by
child derivation stores a directory that never begins or ends with the
separator `'/'` (leading and trailing separators are stripped at
construction); internal empty segments are NOT removed, see the
counterexample. -/
theorem c4_trim_only_boundary :
    ∀ (opts : BasePathOptions) (bp : BasePath) (cd : Option String),
      (∀ d a, (mkBasePath opts).directory = some d →
        (d.toList.head? = some a ∨ d.toList.getLast? = some a) → a ≠ '/') ∧
      (∀ d a, (childBasePath bp cd).directory = some d →
        (d.toList.head? = some a ∨ d.toList.getLast? = some a) → a ≠ '/') := by
  intro opts bp cd
  constructor
  · intro d a h hd
    rcases hd with hd | hd
    · exact (mkBasePath_dir_no_slash opts d h).1 a hd
    · exact (mkBasePath_dir_no_slash opts d h).2 a hd
  · intro d a h hd
    unfold childBasePath at h
    rcases hd with hd | hd
    · exact (mkBasePath_dir_no_slash _ d h).1 a hd
    · exact (mkBasePath_dir_no_slash _ d h).2 a hd

/-- Counterexample to C4 as stated: constructing a context with directory
`"a//b"` stores `"a//b"` unchanged (only boundary slashes are trimmed), and
splitting it on `'/'` yields the empty segment between `"a"` and `"b"`. -/
theorem c4_empty_segment_counterexample :
    (mkBasePath ⟨none, some "a//b"⟩).directory = some "a//b" ∧
    "" ∈ pathToArray (mkBasePath ⟨none, some "a//b"⟩).directory := by
  constructor <;> decide

/-- Witness for the amended C4, applied at the root construction
`directory = "/x/"` (stored as `"x"`) and the child derivation
`"a"` / `"b"` (stored as `"a/b"`). -/
theorem c4_trim_only_boundary_witness :
    ('x' : Char) ≠ '/' ∧ ('a' : Char) ≠ '/' :=
  ⟨(c4_trim_only_boundary ⟨none, some "/x/"⟩ (mkBasePath ⟨none, some "a"⟩) (some "b")).1
      "x" 'x' (by decide) (Or.inl (by decide)),
   (c4_trim_only_boundary ⟨none, some "/x/"⟩ (mkBasePath ⟨none, some "a"⟩) (some "b")).2
      "a/b" 'a' (by decide) (Or.inl (by decide))⟩

/-- A context namespace that is JavaScript-falsy yet validates (after the
`??` fallback) must be absent, not the empty string. -/
lemma validNamespace_getD_of_jsFalsy {r : String} {o : Option String} (hf : jsFalsy o = true)
    (hv : validNamespace (o.getD r) = true) : o = none := by
  cases o with
  | none => rfl
  | some s =>
    simp only [jsFalsy] at hf
    simp only [Option.getD_some] at hv
    rw [validNamespace, hf] at hv
    simp at hv

/-- C6: a successful resolution returns the bare joined path exactly when
the context namespace is unset and the name carries no `':'`; in every other
successful case it returns `"namespace:path"`. -/
theorem c6_bare_path_iff (d : String) (bp : BasePath) (name id : String)
    (h : getName d bp name = Except.ok id) :
    (id = joinedPath d bp name ↔ (bp.namesp = none ∧ hasColon name = false)) ∧
    (¬(bp.namesp = none ∧ hasColon name = false) →
      id = finalNamespace d bp name ++ ":" ++ joinedPath d bp name) := by
  unfold getName at h
  by_cases h1 : (bp.namesp.isSome && hasColon name) = true
  · simp [h1] at h
  · have h1' : (bp.namesp.isSome && hasColon name) = false := by simpa using h1
    by_cases h2 : validNamespace (finalNamespace d bp name) = true
    · by_cases h3 : ((joinedPath d bp name).length == 0) = true
      · simp [h1', h2, h3] at h
      · by_cases h4 : validPath (joinedPath d bp name) = true
        · by_cases h5 : hasDoubleDot (joinedPath d bp name) = true
          · simp [h1', h2, h3, h4, h5] at h
          · by_cases h6 : (jsFalsy bp.namesp && !(hasColon name)) = true
            · simp [h1', h2, h3, h4, h5, h6] at h
              subst h
              have hcol : hasColon name = false := by
                rcases Bool.and_eq_true_iff.mp h6 with ⟨-, hc⟩
                simpa using hc
              have hnone : bp.namesp = none :=
                validNamespace_getD_of_jsFalsy (Bool.and_eq_true_iff.mp h6).1 h2
              exact ⟨by simp [hnone, hcol], fun hc => absurd ⟨hnone, hcol⟩ hc⟩
            · have h6' : (jsFalsy bp.namesp && !(hasColon name)) = false := by simpa using h6
              simp [h1', h2, h3, h4, h5, h6'] at h
              subst h
              have hne : finalNamespace d bp name ++ ":" ++ joinedPath d bp name ≠
                  joinedPath d bp name := by
                intro he
                have hlen := congrArg String.length he
                simp [String.length_append] at hlen
                exact absurd hlen.2 (by decide)
              have hcond : ¬(bp.namesp = none ∧ hasColon name = false) := by
                rintro ⟨hn, hc⟩
                rw [hn, hc] at h6'
                simp [jsFalsy] at h6'
              exact ⟨by simp [hne, hcond], fun _ => rfl⟩
        · have h4' : validPath (joinedPath d bp name) = false := by simpa using h4
          simp [h1', h2, h3, h4'] at h
    · have h2' : validNamespace (finalNamespace d bp name) = false := by simpa using h2
      simp [h1', h2'] at h

/-- Witness for C6: resolving `"foo"` under an empty context succeeds with
the bare path `"foo"`, and the bare-path condition holds there. -/
theorem c6_bare_path_iff_witness :
    ("foo" = joinedPath "minecraft" ⟨none, none⟩ "foo" ↔
      ((⟨none, none⟩ : BasePath).namesp = none ∧ hasColon "foo" = false)) ∧
    (¬((⟨none, none⟩ : BasePath).namesp = none ∧ hasColon "foo" = false) →
      "foo" = finalNamespace "minecraft" ⟨none, none⟩ "foo" ++ ":" ++
        joinedPath "minecraft" ⟨none, none⟩ "foo") :=
  c6_bare_path_iff "minecraft" ⟨none, none⟩ "foo" "foo" (by decide)

/-- C7: past the namespace checks, resolution fails with `EmptyName` iff the
joined path is empty; otherwise with `InvalidPath` iff the path fails the
character-set rule; otherwise with `DoubleDot` iff the path contains `".."`;
the three checks apply in that order. -/
theorem c7_path_checks_order (d : String) (bp : BasePath) (name : String)
    (h1 : (bp.namesp.isSome && hasColon name) = false)
    (h2 : validNamespace (finalNamespace d bp name) = true) :
    (getName d bp name = Except.error NamingError.EmptyName ↔
      (joinedPath d bp name).length = 0) ∧
    ((joinedPath d bp name).length ≠ 0 →
      (getName d bp name = Except.error NamingError.InvalidPath ↔
        validPath (joinedPath d bp name) = false)) ∧
    ((joinedPath d bp name).length ≠ 0 → validPath (joinedPath d bp name) = true →
      (getName d bp name = Except.error NamingError.DoubleDot ↔
        hasDoubleDot (joinedPath d bp name) = true)) := by
  unfold getName
  by_cases h3 : ((joinedPath d bp name).length == 0) = true
  · have h3' : (joinedPath d bp name).length = 0 := by simpa using h3
    simp [h1, h2, h3, h3']
  · have h3' : ¬(joinedPath d bp name).length = 0 := by simpa using h3
    by_cases h4 : validPath (joinedPath d bp name) = true
    · by_cases h5 : hasDoubleDot (joinedPath d bp name) = true
      · simp [h1, h2, h3, h3', h4, h5]
      · have h5' : hasDoubleDot (joinedPath d bp name) = false := by simpa using h5
        by_cases h6 : (jsFalsy bp.namesp && !(hasColon name)) = true
        · simp [h1, h2, h3, h3', h4, h5', h6]
        · have h6' : (jsFalsy bp.namesp && !(hasColon name)) = false := by simpa using h6
          simp [h1, h2, h3, h3', h4, h5', h6']
    · have h4' : validPath (joinedPath d bp name) = false := by simpa using h4
      simp [h1, h2, h3, h3', h4']

/-- Witness for C7 at the concrete input `"a..b"` under an empty context:
the resolution fails with `DoubleDot` and each of the three equivalences is
instantiated. -/
theorem c7_path_checks_order_witness :
    (getName "minecraft" ⟨none, none⟩ "a..b" = Except.error NamingError.EmptyName ↔
      (joinedPath "minecraft" ⟨none, none⟩ "a..b").length = 0) ∧
    ((joinedPath "minecraft" ⟨none, none⟩ "a..b").length ≠ 0 →
      (getName "minecraft" ⟨none, none⟩ "a..b" = Except.error NamingError.InvalidPath ↔
        validPath (joinedPath "minecraft" ⟨none, none⟩ "a..b") = false)) ∧
    ((joinedPath "minecraft" ⟨none, none⟩ "a..b").length ≠ 0 →
      validPath (joinedPath "minecraft" ⟨none, none⟩ "a..b") = true →
      (getName "minecraft" ⟨none, none⟩ "a..b" = Except.error NamingError.DoubleDot ↔
        hasDoubleDot (joinedPath "minecraft" ⟨none, none⟩ "a..b") = true)) :=
  c7_path_checks_order "minecraft" ⟨none, none⟩ "a..b" (by decide) (by decide)

end Sandstone
